import Mathlib

/-!
Shallow embedding of the game-logic engine in `src/app.rs` of the
`turtris` repository: board representation, piece movement, collision
checking, the table-driven rotation transform, and piece locking.

Conventions of the embedding:
* Rust `usize` values are `Nat`; Rust `i16` values are `Int` (all values
  that actually flow through the i16 code paths lie in `[-10, 249]`, far
  inside the i16 range, so no overflow modelling is needed).
* `Vec<Cell>` is `List Cell`; `board[i]` reads are modelled with
  `List.get?` (the out-of-bounds panic case is analysed separately via
  `Option`-returning checked variants), and `board[i] = c` writes with
  `List.set` (a no-op out of range; writes in reachable states are proved
  in range).
* The `for`-loop with early `return false` in `move_is_legal` is the
  conjunction, in source order, of the per-pair checks.
* `Piece::new` draws `Math.floor(Math.random() * 7)` from JS; the random
  draw is passed in as an explicit `Nat` argument.
-/

def BOARD_WIDTH : Nat := 10
def BOARD_HEIGHT : Nat := 24

inductive Color where
  | Turquoise
  | Blue
  | Orange
  | Yellow
  | Green
  | Purple
  | Red
deriving DecidableEq, Repr

structure Cell where
  color : Option Color
deriving DecidableEq, Repr

abbrev Board := List Cell

abbrev Position := Nat × Nat × Nat × Nat

abbrev TheoritcalPosition := Int × Int × Int × Int

/-- `position_to_theoritical`: the four `usize` indices cast to `i16`. -/
def position_to_theoritical (position : Position) : TheoritcalPosition :=
  (position.1, position.2.1, position.2.2.1, position.2.2.2)

/-- `position_from_theoritical`: the four `i16` values cast back to `usize`.
The Rust `usize::try_from(_).unwrap()` panics on negative input; `Int.toNat`
is its value on the non-negative inputs it is actually applied to (the
checked variant `position_from_theoritical?` models the panic case). -/
def position_from_theoritical (theoritcal : TheoritcalPosition) : Position :=
  (theoritcal.1.toNat, theoritcal.2.1.toNat, theoritcal.2.2.1.toNat, theoritcal.2.2.2.toNat)

/-- Checked variant of `position_from_theoritical`: `none` exactly when some
component is negative, i.e. when `usize::try_from` would panic. -/
def position_from_theoritical? (theoritcal : TheoritcalPosition) : Option Position :=
  if 0 ≤ theoritcal.1 ∧ 0 ≤ theoritcal.2.1 ∧ 0 ≤ theoritcal.2.2.1 ∧ 0 ≤ theoritcal.2.2.2 then
    some (position_from_theoritical theoritcal)
  else
    none

structure Piece where
  color : Color
  position : Position
deriving DecidableEq, Repr

/-- `Piece::new`, with the JS random draw (`Math.floor(Math.random()*7)`)
passed in explicitly. -/
def Piece.new (random_js_number : Nat) : Piece :=
  match random_js_number with
  | 0 => { color := Color.Yellow, position := (4, 5, 14, 15) }
  | 1 => { color := Color.Green, position := (14, 15, 5, 6) }
  | 2 => { color := Color.Red, position := (4, 5, 15, 16) }
  | 3 => { color := Color.Purple, position := (5, 14, 15, 16) }
  | 4 => { color := Color.Orange, position := (14, 15, 16, 6) }
  | 5 => { color := Color.Blue, position := (4, 14, 15, 16) }
  | _ => { color := Color.Turquoise, position := (4, 14, 24, 34) }

/-- `Piece::occupies_cell`. -/
def Piece.occupies_cell (p : Piece) (index : Nat) : Bool :=
  index == p.position.1 || index == p.position.2.1 ||
    index == p.position.2.2.1 || index == p.position.2.2.2

inductive Direction where
  | Up
  | Down
  | Left
  | Right
deriving DecidableEq, Repr

inductive GameEvent where
  | MoveCurrentPiece (direction : Direction)
  | RotateCurrentPiece
  | PlaceCurrentPiece
  | NoOP
deriving DecidableEq, Repr

structure State where
  board : Board
  current_piece : Piece
deriving DecidableEq, Repr

/-- The occupancy read `board[new].color.is_some()` of `move_is_legal`,
totalized with `List.get?` (equal to the Rust read whenever
`new.toNat < board.length`, which the preceding bound guard ensures on the
240-cell board; see the checked variant for the panic analysis). -/
def cellTaken (board : Board) (new : Int) : Bool :=
  match board.get? new.toNat with
  | some c => c.color.isSome
  | none => false

/-- The match arms of `move_is_legal` for one `(old, new)` pair, in source
order: top/bottom bound, right-bound wrap, left-bound wrap, occupancy. -/
def pairIllegal (board : Board) (old : Nat) (new : Int) : Bool :=
  if new < 0 || new > 239 then true
  else if (old + 1) % 10 == 0 && new % 10 == 0 then true
  else if old % 10 == 0 && (new + 1) % 10 == 0 then true
  else if cellTaken board new then true
  else false

/-- `move_is_legal`: the early-return loop over the four `(old, new)`
pairs, as the conjunction of the per-pair checks in source order. -/
def move_is_legal (board : Board) (old_position : Position)
    (new_position : TheoritcalPosition) : Bool :=
  !pairIllegal board old_position.1 new_position.1 &&
  !pairIllegal board old_position.2.1 new_position.2.1 &&
  !pairIllegal board old_position.2.2.1 new_position.2.2.1 &&
  !pairIllegal board old_position.2.2.2 new_position.2.2.2

/-- Checked variant of `cellTaken`: `none` when the Rust indexing
`board[usize::try_from(new).unwrap()]` would panic (negative index or index
beyond the board length). -/
def cellTaken? (board : Board) (new : Int) : Option Bool :=
  if new < 0 then none
  else
    match board.get? new.toNat with
    | some c => some c.color.isSome
    | none => none

/-- Checked variant of `pairIllegal`, propagating the panic case of the
occupancy read. -/
def pairIllegal? (board : Board) (old : Nat) (new : Int) : Option Bool :=
  if new < 0 || new > 239 then some true
  else if (old + 1) % 10 == 0 && new % 10 == 0 then some true
  else if old % 10 == 0 && (new + 1) % 10 == 0 then some true
  else
    match cellTaken? board new with
    | some b => some b
    | none => none

/-- Checked variant of `move_is_legal`: `none` if any evaluated occupancy
read would panic. -/
def move_is_legal? (board : Board) (old_position : Position)
    (new_position : TheoritcalPosition) : Option Bool :=
  match pairIllegal? board old_position.1 new_position.1 with
  | none => none
  | some true => some false
  | some false =>
    match pairIllegal? board old_position.2.1 new_position.2.1 with
    | none => none
    | some true => some false
    | some false =>
      match pairIllegal? board old_position.2.2.1 new_position.2.2.1 with
      | none => none
      | some true => some false
      | some false =>
        match pairIllegal? board old_position.2.2.2 new_position.2.2.2 with
        | none => none
        | some true => some false
        | some false => some true

def min4 (a b c d : Int) : Int := min (min (min a b) c) d

/-- The literal `match` table of `calculate_rotation`: normalized shape ↦
(next normalized shape, additional adjust); the final branch is the
fall-through arm returning the input with adjust 0. -/
def rotation_lookup (t : Int × Int × Int × Int) : (Int × Int × Int × Int) × Int :=
  if t = (0, 1, 10, 11) then ((0, 1, 10, 11), 0)
  else if t = (0, 1, 11, 12) then ((1, 10, 11, 20), 0)
  else if t = (1, 10, 11, 20) then ((0, 1, 11, 12), 0)
  else if t = (10, 11, 1, 2) then ((0, 10, 11, 21), 0)
  else if t = (0, 10, 11, 21) then ((10, 11, 1, 2), 0)
  else if t = (1, 10, 11, 12) then ((1, 11, 12, 21), 0)
  else if t = (0, 10, 11, 20) then ((9, 10, 11, 20), 0)
  else if t = (0, 1, 2, 11) then ((1, 10, 11, 21), -10)
  else if t = (1, 10, 11, 21) then ((1, 10, 11, 12), 0)
  else if t = (10, 11, 12, 2) then ((1, 11, 21, 22), 0)
  else if t = (0, 10, 20, 21) then ((10, 11, 12, 20), -1)
  else if t = (0, 1, 2, 10) then ((1, 2, 12, 22), -10)
  else if t = (0, 1, 11, 21) then ((10, 11, 12, 2), -1)
  else if t = (0, 10, 11, 12) then ((1, 2, 11, 21), 0)
  else if t = (0, 1, 10, 20) then ((0, 1, 2, 12), -1)
  else if t = (0, 1, 2, 12) then ((2, 12, 21, 22), 0)
  else if t = (1, 11, 20, 21) then ((0, 10, 11, 12), -1)
  else if t = (0, 10, 20, 30) then ((0, 1, 2, 3), 9)
  else if t = (0, 1, 2, 3) then ((0, 10, 20, 30), -9)
  else (t, 0)

/-- The 19 keys of the rotation table, in source order. -/
def rotation_table_keys : List (Int × Int × Int × Int) :=
  [(0, 1, 10, 11),
   (0, 1, 11, 12), (1, 10, 11, 20),
   (10, 11, 1, 2), (0, 10, 11, 21),
   (1, 10, 11, 12), (0, 10, 11, 20), (0, 1, 2, 11), (1, 10, 11, 21),
   (10, 11, 12, 2), (0, 10, 20, 21), (0, 1, 2, 10), (0, 1, 11, 21),
   (0, 10, 11, 12), (0, 1, 10, 20), (0, 1, 2, 12), (1, 11, 20, 21),
   (0, 10, 20, 30), (0, 1, 2, 3)]

/-- `horizontal_adjust` of `calculate_rotation`: the minimum column of the
four cells. All values flowing through are non-negative, so Lean's
Euclidean `%` on `Int` agrees with Rust's truncated `i16` `%`. -/
def horizontal_adjust (piece_position : Position) : Int :=
  let t := position_to_theoritical piece_position
  min4 (t.1 % 10) (t.2.1 % 10) (t.2.2.1 % 10) (t.2.2.2 % 10)

/-- `vertical_adjust` of `calculate_rotation`: the minimum row of the four
cells (non-negative values, so Euclidean `/` agrees with Rust's `/`). -/
def vertical_adjust (piece_position : Position) : Int :=
  let t := position_to_theoritical piece_position
  min4 (t.1 / 10) (t.2.1 / 10) (t.2.2.1 / 10) (t.2.2.2 / 10)

/-- The normalized 4-tuple that `calculate_rotation` matches on: each index
minus `horizontal_adjust` minus `vertical_adjust * 10`. -/
def normalized_key (piece_position : Position) : Int × Int × Int × Int :=
  let t := position_to_theoritical piece_position
  (t.1 - horizontal_adjust piece_position - vertical_adjust piece_position * 10,
   t.2.1 - horizontal_adjust piece_position - vertical_adjust piece_position * 10,
   t.2.2.1 - horizontal_adjust piece_position - vertical_adjust piece_position * 10,
   t.2.2.2 - horizontal_adjust piece_position - vertical_adjust piece_position * 10)

/-- `calculate_rotation`. -/
def calculate_rotation (piece_position : Position) : TheoritcalPosition :=
  let looked := rotation_lookup (normalized_key piece_position)
  let r := looked.1
  let additional_adjust := looked.2
  (r.1 + horizontal_adjust piece_position + vertical_adjust piece_position * 10 +
     additional_adjust,
   r.2.1 + horizontal_adjust piece_position + vertical_adjust piece_position * 10 +
     additional_adjust,
   r.2.2.1 + horizontal_adjust piece_position + vertical_adjust piece_position * 10 +
     additional_adjust,
   r.2.2.2 + horizontal_adjust piece_position + vertical_adjust piece_position * 10 +
     additional_adjust)

/-- `calculate_new_position`. -/
def calculate_new_position (piece_position : Position) (direction : Direction) :
    TheoritcalPosition :=
  let t := position_to_theoritical piece_position
  let width : Int := 10
  match direction with
  | Direction.Down => (t.1 + width, t.2.1 + width, t.2.2.1 + width, t.2.2.2 + width)
  | Direction.Up => (t.1 - width, t.2.1 - width, t.2.2.1 - width, t.2.2.2 - width)
  | Direction.Left => (t.1 - 1, t.2.1 - 1, t.2.2.1 - 1, t.2.2.2 - 1)
  | Direction.Right => (t.1 + 1, t.2.1 + 1, t.2.2.1 + 1, t.2.2.2 + 1)

/-- `attempt_move`. -/
def attempt_move (board : Board) (piece_position : Position) (direction : Direction) :
    Position :=
  let new_position := calculate_new_position piece_position direction
  if move_is_legal board piece_position new_position then
    position_from_theoritical new_position
  else
    piece_position

/-- `attempt_rotate`. -/
def attempt_rotate (board : Board) (piece_position : Position) : Position :=
  let new_position := calculate_rotation piece_position
  if move_is_legal board piece_position new_position then
    position_from_theoritical new_position
  else
    piece_position

/-- `init_board`: 240 empty cells, then `board[232]` set to red. -/
def init_board : Board :=
  (List.replicate (BOARD_WIDTH * BOARD_HEIGHT) { color := none : Cell }).set 232
    { color := some Color.Red }

/-- The body of the `PlaceCurrentPiece` arm of `App::update`: the loop
`for cell in &[w, x, y, z] { board[*cell] = Cell { color: Some(color) } }`
unrolled in order. -/
def place_piece (board : Board) (position : Position) (color : Color) : Board :=
  ((((board.set position.1 { color := some color }).set
      position.2.1 { color := some color }).set
      position.2.2.1 { color := some color }).set
      position.2.2.2 { color := some color })

/-- The game-event dispatch of `App::update` (the `Msg::HandleKeyDown` arm),
acting on the game state; the JS random draw used by `Piece::new` on a lock
is passed in explicitly. -/
def update (s : State) (event : GameEvent) (random : Nat) : State :=
  match event with
  | GameEvent.MoveCurrentPiece direction =>
    { s with current_piece :=
        { s.current_piece with
          position := attempt_move s.board s.current_piece.position direction } }
  | GameEvent.RotateCurrentPiece =>
    { s with current_piece :=
        { s.current_piece with
          position := attempt_rotate s.board s.current_piece.position } }
  | GameEvent.PlaceCurrentPiece =>
    { board := place_piece s.board s.current_piece.position s.current_piece.color,
      current_piece := Piece.new random }
  | GameEvent.NoOP => s

/-- The initial state built in `App::create`: `init_board` plus a freshly
spawned piece. -/
def initState (random : Nat) : State :=
  { board := init_board, current_piece := Piece.new random }

/-- Processing a sequence of game events, each with the random draw its
potential spawn consumes. -/
def runEvents (s : State) (events : List (GameEvent × Nat)) : State :=
  events.foldl (fun st e => update st e.1 e.2) s

/-- A position's four indices are all on the 240-cell board. -/
def posInRange (p : Position) : Prop :=
  p.1 < 240 ∧ p.2.1 < 240 ∧ p.2.2.1 < 240 ∧ p.2.2.2 < 240

instance (p : Position) : Decidable (posInRange p) := by
  unfold posInRange; infer_instance

/-- The color stored at board index `i` (`none` when off the board or
empty). -/
def boardColor (board : Board) (i : Nat) : Option Color :=
  match board.get? i with
  | some c => c.color
  | none => none

/-- A board cell is occupied (its `Option Color` is `some`). -/
def cellOccupied (board : Board) (i : Nat) : Bool :=
  (boardColor board i).isSome

example : attempt_move init_board (4, 5, 14, 15) Direction.Down = (14, 15, 24, 25) := by decide

example : boardColor init_board 232 = some Color.Red := by decide

/-! ## Helper lemmas -/

/-- The per-pair rejection predicate as the spec words it: candidate out of
range, right-bound wrap, left-bound wrap, or candidate in range with its
board cell occupied. -/
def pairIllegalSpec (board : Board) (old : Nat) (new : Int) : Prop :=
  new < 0 ∨ 239 < new ∨
  ((old + 1) % 10 = 0 ∧ new % 10 = 0) ∨
  (old % 10 = 0 ∧ (new + 1) % 10 = 0) ∨
  (0 ≤ new ∧ new ≤ 239 ∧ cellTaken board new = true)

theorem pairIllegal_iff (board : Board) (old : Nat) (new : Int) :
    pairIllegal board old new = true ↔ pairIllegalSpec board old new := by
  unfold pairIllegal pairIllegalSpec
  split_ifs with h1 h2 h3 h4
  · simp only [Bool.or_eq_true, decide_eq_true_eq] at h1
    exact iff_of_true rfl (by tauto)
  · simp only [Bool.and_eq_true, decide_eq_true_eq, beq_iff_eq] at h2
    exact iff_of_true rfl (by tauto)
  · simp only [Bool.and_eq_true, decide_eq_true_eq, beq_iff_eq] at h3
    exact iff_of_true rfl (by tauto)
  · simp only [Bool.or_eq_true, decide_eq_true_eq, not_or] at h1
    exact iff_of_true rfl
      (Or.inr (Or.inr (Or.inr (Or.inr ⟨by omega, by omega, h4⟩))))
  · simp only [Bool.or_eq_true, decide_eq_true_eq, not_or] at h1
    simp only [Bool.and_eq_true, decide_eq_true_eq, beq_iff_eq] at h2 h3
    refine iff_of_false (by simp) ?_
    rintro (hc | hc | hc | hc | ⟨-, -, hc⟩)
    · omega
    · omega
    · exact h2 hc
    · exact h3 hc
    · exact h4 hc

theorem pairIllegal_false_bounds (board : Board) (old : Nat) (new : Int)
    (h : pairIllegal board old new = false) : 0 ≤ new ∧ new ≤ 239 := by
  unfold pairIllegal at h
  split_ifs at h with h1 h2 h3 h4
  simp only [Bool.or_eq_true, decide_eq_true_eq, not_or] at h1
  omega

theorem move_is_legal_eq_true (board : Board) (op : Position) (np : TheoritcalPosition) :
    move_is_legal board op np = true ↔
      pairIllegal board op.1 np.1 = false ∧ pairIllegal board op.2.1 np.2.1 = false ∧
      pairIllegal board op.2.2.1 np.2.2.1 = false ∧
      pairIllegal board op.2.2.2 np.2.2.2 = false := by
  unfold move_is_legal
  simp [Bool.and_eq_true, Bool.not_eq_true', and_assoc]

theorem move_is_legal_bounds (board : Board) (op : Position) (np : TheoritcalPosition)
    (h : move_is_legal board op np = true) :
    (0 ≤ np.1 ∧ np.1 ≤ 239) ∧ (0 ≤ np.2.1 ∧ np.2.1 ≤ 239) ∧
    (0 ≤ np.2.2.1 ∧ np.2.2.1 ≤ 239) ∧ (0 ≤ np.2.2.2 ∧ np.2.2.2 ≤ 239) := by
  rw [move_is_legal_eq_true] at h
  exact ⟨pairIllegal_false_bounds _ _ _ h.1, pairIllegal_false_bounds _ _ _ h.2.1,
    pairIllegal_false_bounds _ _ _ h.2.2.1, pairIllegal_false_bounds _ _ _ h.2.2.2⟩

theorem to_from_theoritical (t : TheoritcalPosition)
    (h : 0 ≤ t.1 ∧ 0 ≤ t.2.1 ∧ 0 ≤ t.2.2.1 ∧ 0 ≤ t.2.2.2) :
    position_to_theoritical (position_from_theoritical t) = t := by
  obtain ⟨w, x, y, z⟩ := t
  obtain ⟨h1, h2, h3, h4⟩ := h
  simp only [position_from_theoritical, position_to_theoritical] at *
  exact Prod.ext (Int.toNat_of_nonneg h1) (Prod.ext (Int.toNat_of_nonneg h2)
    (Prod.ext (Int.toNat_of_nonneg h3) (Int.toNat_of_nonneg h4)))

theorem rotation_lookup_not_mem (t : Int × Int × Int × Int)
    (h : t ∉ rotation_table_keys) : rotation_lookup t = (t, 0) := by
  simp only [rotation_table_keys, List.mem_cons, List.not_mem_nil, or_false, not_or] at h
  obtain ⟨h1, h2, h3, h4, h5, h6, h7, h8, h9, h10, h11, h12, h13, h14, h15, h16, h17,
    h18, h19⟩ := h
  unfold rotation_lookup
  rw [if_neg h1, if_neg h2, if_neg h3, if_neg h4, if_neg h5, if_neg h6, if_neg h7,
    if_neg h8, if_neg h9, if_neg h10, if_neg h11, if_neg h12, if_neg h13, if_neg h14,
    if_neg h15, if_neg h16, if_neg h17, if_neg h18, if_neg h19]

/-! ## Claims -/

set_option maxRecDepth 10000 in
/-- C4, counterexample: it is not the case that every cell of `init_board`
is unoccupied — `init_board` pre-seeds index 232 with red. -/
theorem init_board_not_all_empty :
    ¬ (∀ i, i < 240 → boardColor init_board i = none) := by
  decide

set_option maxRecDepth 10000 in
/-- C4, amended: `init_board` has `Width*Height = 240` cells; cell 232 is
occupied (red) and every other cell is unoccupied. -/
theorem init_board_spec :
    init_board.length = 240 ∧ boardColor init_board 232 = some Color.Red ∧
      ∀ i, i < 240 → i ≠ 232 → boardColor init_board i = none := by
  decide

/-- Witness for C4's amended theorem at index 0. -/
theorem init_board_spec_witness : boardColor init_board 0 = none :=
  init_board_spec.2.2 0 (by decide) (by decide)

/-- One accepted rotation step as `attempt_rotate` commits it: the pure
transform followed by the cast back to grid indices. -/
def rotate_once (p : Position) : Position :=
  position_from_theoritical (calculate_rotation p)

/-- C3: for each of the 7 shape variants, applying the pure rotation
transform 4 times from the spawn position returns the spawn position. -/
theorem rotation_four_cycle (random : Nat) :
    rotate_once (rotate_once (rotate_once (rotate_once (Piece.new random).position))) =
      (Piece.new random).position := by
  match random with
  | 0 => decide
  | 1 => decide
  | 2 => decide
  | 3 => decide
  | 4 => decide
  | 5 => decide
  | (n + 6) =>
    exact (by decide :
      rotate_once (rotate_once (rotate_once (rotate_once (4, 14, 24, 34)))) =
        (4, 14, 24, 34))

/-- C8: when the normalized 4-tuple is not one of the 19 table entries,
`calculate_rotation` returns the input position unchanged. -/
theorem calculate_rotation_fallback (p : Position)
    (h : normalized_key p ∉ rotation_table_keys) :
    calculate_rotation p = position_to_theoritical p := by
  unfold calculate_rotation
  rw [rotation_lookup_not_mem _ h]
  unfold normalized_key position_to_theoritical
  simp only [Prod.mk.injEq]
  refine ⟨by ring, by ring, by ring, by ring⟩

/-- Witness for C8 at the non-tetromino tuple `(0, 1, 2, 4)`. -/
theorem calculate_rotation_fallback_witness :
    calculate_rotation (0, 1, 2, 4) = position_to_theoritical (0, 1, 2, 4) :=
  calculate_rotation_fallback (0, 1, 2, 4) (by decide)

/-- C1: `move_is_legal` returns false iff at least one of the four paired
(old, new) cells is out of range `[0, 240)`, wraps the right bound, wraps
the left bound, or targets an occupied in-range cell; and both
`attempt_move` and `attempt_rotate` gate their candidates on this same
predicate. -/
theorem move_is_legal_false_iff (board : Board) (op : Position)
    (np : TheoritcalPosition) :
    (move_is_legal board op np = false ↔
      pairIllegalSpec board op.1 np.1 ∨ pairIllegalSpec board op.2.1 np.2.1 ∨
      pairIllegalSpec board op.2.2.1 np.2.2.1 ∨
      pairIllegalSpec board op.2.2.2 np.2.2.2) ∧
    (∀ d, attempt_move board op d =
      if move_is_legal board op (calculate_new_position op d) then
        position_from_theoritical (calculate_new_position op d)
      else op) ∧
    (attempt_rotate board op =
      if move_is_legal board op (calculate_rotation op) then
        position_from_theoritical (calculate_rotation op)
      else op) := by
  refine ⟨?_, fun d => rfl, rfl⟩
  rw [← pairIllegal_iff board op.1 np.1, ← pairIllegal_iff board op.2.1 np.2.1,
    ← pairIllegal_iff board op.2.2.1 np.2.2.1, ← pairIllegal_iff board op.2.2.2 np.2.2.2]
  unfold move_is_legal
  cases hb1 : pairIllegal board op.1 np.1 <;>
    cases hb2 : pairIllegal board op.2.1 np.2.1 <;>
      cases hb3 : pairIllegal board op.2.2.1 np.2.2.1 <;>
        cases hb4 : pairIllegal board op.2.2.2 np.2.2.2 <;>
          simp [hb1, hb2, hb3, hb4]

/-- The fixed signed delta of each direction: `±Width` for Down/Up, `±1`
for Right/Left. -/
def direction_delta : Direction → Int
  | Direction.Down => 10
  | Direction.Up => -10
  | Direction.Left => -1
  | Direction.Right => 1

theorem calculate_new_position_eq (p : Position) (d : Direction) :
    calculate_new_position p d =
      ((p.1 : Int) + direction_delta d, (p.2.1 : Int) + direction_delta d,
       (p.2.2.1 : Int) + direction_delta d, (p.2.2.2 : Int) + direction_delta d) := by
  cases d <;>
    unfold calculate_new_position direction_delta position_to_theoritical <;>
      simp only [Prod.mk.injEq] <;>
        exact ⟨by ring, by ring, by ring, by ring⟩

/-- C2: for an in-range position, `attempt_move` either returns the
position with all four indices shifted by the direction's fixed delta
(when the candidate passes `move_is_legal`) or returns the position
unchanged (when it fails); never a partially shifted position. -/
theorem attempt_move_all_or_nothing (board : Board) (p : Position) (d : Direction)
    (hp : posInRange p) :
    (move_is_legal board p (calculate_new_position p d) = true →
      position_to_theoritical (attempt_move board p d) =
        ((p.1 : Int) + direction_delta d, (p.2.1 : Int) + direction_delta d,
         (p.2.2.1 : Int) + direction_delta d, (p.2.2.2 : Int) + direction_delta d)) ∧
    (move_is_legal board p (calculate_new_position p d) = false →
      attempt_move board p d = p) := by
  constructor
  · intro h
    have hb := move_is_legal_bounds board p _ h
    simp only [attempt_move]
    rw [if_pos h,
      to_from_theoritical _ ⟨hb.1.1, hb.2.1.1, hb.2.2.1.1, hb.2.2.2.1⟩]
    exact calculate_new_position_eq p d
  · intro h
    simp only [attempt_move]
    rw [if_neg (by simp [h])]

/-- Witness for C2: moving the square piece down from its spawn on the
initial board shifts all four indices by `+10`. -/
theorem attempt_move_all_or_nothing_witness :
    posInRange ((4 : Nat), (5 : Nat), (14 : Nat), (15 : Nat)) ∧
    position_to_theoritical (attempt_move init_board (4, 5, 14, 15) Direction.Down) =
      ((((4, 5, 14, 15) : Position).1 : Int) + direction_delta Direction.Down,
       (((4, 5, 14, 15) : Position).2.1 : Int) + direction_delta Direction.Down,
       (((4, 5, 14, 15) : Position).2.2.1 : Int) + direction_delta Direction.Down,
       (((4, 5, 14, 15) : Position).2.2.2 : Int) + direction_delta Direction.Down) :=
  ⟨by decide,
   (attempt_move_all_or_nothing init_board (4, 5, 14, 15) Direction.Down
      (by decide)).1 (by decide)⟩

theorem cellTaken?_eq (board : Board) (new : Int) (h0 : ¬ new < 0)
    (hlt : new.toNat < board.length) :
    cellTaken? board new = some (cellTaken board new) := by
  unfold cellTaken? cellTaken
  rw [if_neg h0]
  cases hg : board.get? new.toNat with
  | none =>
    rw [List.get?_eq_getElem?, List.getElem?_eq_none_iff] at hg
    omega
  | some c => rfl

theorem pairIllegal?_eq (board : Board) (old : Nat) (new : Int)
    (hlen : board.length = 240) :
    pairIllegal? board old new = some (pairIllegal board old new) := by
  unfold pairIllegal? pairIllegal
  split_ifs with h1 h2 h3 h4
  · rfl
  · rfl
  · rfl
  · simp only [Bool.or_eq_true, decide_eq_true_eq, not_or] at h1
    rw [cellTaken?_eq board new (by omega) (by omega)]
    simp [h4]
  · simp only [Bool.or_eq_true, decide_eq_true_eq, not_or] at h1
    simp only [Bool.not_eq_true] at h4
    rw [cellTaken?_eq board new (by omega) (by omega)]
    simp [h4]

/-- C9: the legality check and the move commit are panic-free — on the
240-cell board the checked legality test (which reports a potential panic
of the occupancy read as `none`) agrees with `move_is_legal`, and the
signed-to-unsigned conversion of any candidate accepted by `move_is_legal`
succeeds. -/
theorem legality_check_safe (board : Board) (op : Position)
    (np : TheoritcalPosition) :
    (board.length = 240 →
      move_is_legal? board op np = some (move_is_legal board op np)) ∧
    (move_is_legal board op np = true →
      position_from_theoritical? np = some (position_from_theoritical np)) := by
  constructor
  · intro hlen
    unfold move_is_legal? move_is_legal
    rw [pairIllegal?_eq _ _ _ hlen, pairIllegal?_eq _ _ _ hlen,
      pairIllegal?_eq _ _ _ hlen, pairIllegal?_eq _ _ _ hlen]
    cases hb1 : pairIllegal board op.1 np.1 <;>
      cases hb2 : pairIllegal board op.2.1 np.2.1 <;>
        cases hb3 : pairIllegal board op.2.2.1 np.2.2.1 <;>
          cases hb4 : pairIllegal board op.2.2.2 np.2.2.2 <;>
            simp [hb1, hb2, hb3, hb4]
  · intro h
    have hb := move_is_legal_bounds board op np h
    unfold position_from_theoritical?
    rw [if_pos ⟨hb.1.1, hb.2.1.1, hb.2.2.1.1, hb.2.2.2.1⟩]

set_option maxRecDepth 10000 in
/-- Witness for C9 on the initial board with the square piece's down
move. -/
theorem legality_check_safe_witness :
    move_is_legal? init_board (4, 5, 14, 15) (14, 15, 24, 25) =
      some (move_is_legal init_board (4, 5, 14, 15) (14, 15, 24, 25)) ∧
    position_from_theoritical? ((14, 15, 24, 25) : TheoritcalPosition) =
      some (position_from_theoritical (14, 15, 24, 25)) :=
  ⟨(legality_check_safe init_board (4, 5, 14, 15) (14, 15, 24, 25)).1 (by decide),
   (legality_check_safe init_board (4, 5, 14, 15) (14, 15, 24, 25)).2 (by decide)⟩

/-! ## Board-write lemmas -/

theorem boardColor_set_self (b : Board) (i : Nat) (c : Cell) (hi : i < b.length) :
    boardColor (b.set i c) i = c.color := by
  unfold boardColor
  rw [List.get?_eq_getElem?, List.getElem?_set_self hi]

theorem boardColor_set_ne (b : Board) (j i : Nat) (c : Cell) (h : j ≠ i) :
    boardColor (b.set j c) i = boardColor b i := by
  unfold boardColor
  rw [List.get?_eq_getElem?, List.get?_eq_getElem?, List.getElem?_set_ne h]

theorem get?_set_ne (b : Board) (j i : Nat) (c : Cell) (h : j ≠ i) :
    (b.set j c).get? i = b.get? i := by
  rw [List.get?_eq_getElem?, List.get?_eq_getElem?, List.getElem?_set_ne h]

theorem boardColor_lt_length (b : Board) (i : Nat) (c : Color)
    (h : boardColor b i = some c) : i < b.length := by
  unfold boardColor at h
  cases hg : b.get? i with
  | none => rw [hg] at h; cases h
  | some cell =>
    rw [List.get?_eq_getElem?] at hg
    obtain ⟨hlt, -⟩ := List.getElem?_eq_some_iff.mp hg
    exact hlt

theorem cellOccupied_lt_length (b : Board) (i : Nat)
    (h : cellOccupied b i = true) : i < b.length := by
  unfold cellOccupied at h
  rw [Option.isSome_iff_exists] at h
  obtain ⟨c, hc⟩ := h
  exact boardColor_lt_length b i c hc

theorem boardColor_set_some (b : Board) (j i : Nat) (c : Color)
    (h : boardColor b i = some c) :
    boardColor (b.set j { color := some c }) i = some c := by
  rcases eq_or_ne j i with rfl | hne
  · rw [boardColor_set_self _ _ _ (boardColor_lt_length _ _ _ h)]
  · rw [boardColor_set_ne _ _ _ _ hne, h]

theorem cellOccupied_set_some (b : Board) (j i : Nat) (c : Color)
    (h : cellOccupied b i = true) :
    cellOccupied (b.set j { color := some c }) i = true := by
  unfold cellOccupied at *
  rw [Option.isSome_iff_exists] at h
  obtain ⟨c0, hc0⟩ := h
  rcases eq_or_ne j i with rfl | hne
  · rw [boardColor_set_self _ _ _ (boardColor_lt_length _ _ _ hc0)]
    rfl
  · rw [boardColor_set_ne _ _ _ _ hne, hc0]
    rfl

theorem cellOccupied_place_piece (b : Board) (p : Position) (c : Color) (i : Nat)
    (h : cellOccupied b i = true) :
    cellOccupied (place_piece b p c) i = true := by
  unfold place_piece
  exact cellOccupied_set_some _ _ _ _ (cellOccupied_set_some _ _ _ _
    (cellOccupied_set_some _ _ _ _ (cellOccupied_set_some _ _ _ _ h)))

theorem boardColor_place_piece_mem (b : Board) (p : Position) (c : Color) (i : Nat)
    (hi : i < b.length)
    (h : i = p.1 ∨ i = p.2.1 ∨ i = p.2.2.1 ∨ i = p.2.2.2) :
    boardColor (place_piece b p c) i = some c := by
  unfold place_piece
  rcases h with rfl | rfl | rfl | rfl
  · exact boardColor_set_some _ _ _ _ (boardColor_set_some _ _ _ _
      (boardColor_set_some _ _ _ _ (by rw [boardColor_set_self _ _ _ hi])))
  · exact boardColor_set_some _ _ _ _ (boardColor_set_some _ _ _ _
      (by rw [boardColor_set_self _ _ _ (by simpa using hi)]))
  · exact boardColor_set_some _ _ _ _
      (by rw [boardColor_set_self _ _ _ (by simpa using hi)])
  · rw [boardColor_set_self _ _ _ (by simpa using hi)]

theorem cellOccupied_update_mono (s : State) (e : GameEvent) (r : Nat) (i : Nat)
    (h : cellOccupied s.board i = true) :
    cellOccupied (update s e r).board i = true := by
  cases e with
  | MoveCurrentPiece d => exact h
  | RotateCurrentPiece => exact h
  | PlaceCurrentPiece => exact cellOccupied_place_piece _ _ _ _ h
  | NoOP => exact h

theorem cellOccupied_runEvents (s : State) (events : List (GameEvent × Nat)) (i : Nat)
    (h : cellOccupied s.board i = true) :
    cellOccupied (runEvents s events).board i = true := by
  induction events generalizing s with
  | nil => exact h
  | cons e rest ih => exact ih _ (cellOccupied_update_mono s e.1 e.2 i h)

/-- C5: on a 240-cell board with an in-range piece, `PlaceCurrentPiece`
unconditionally writes the piece's color into its four cells (the board
becomes exactly `place_piece`, with no legality check), replaces the piece
by the freshly spawned `Piece.new random`, all four indices are occupied
with the piece's color immediately after, and they stay occupied after any
further event sequence. -/
theorem place_current_piece_spec (s : State) (random : Nat)
    (hlen : s.board.length = 240) (hp : posInRange s.current_piece.position) :
    (update s GameEvent.PlaceCurrentPiece random).board =
      place_piece s.board s.current_piece.position s.current_piece.color ∧
    (update s GameEvent.PlaceCurrentPiece random).current_piece = Piece.new random ∧
    (∀ i, (i = s.current_piece.position.1 ∨ i = s.current_piece.position.2.1 ∨
           i = s.current_piece.position.2.2.1 ∨ i = s.current_piece.position.2.2.2) →
      boardColor (update s GameEvent.PlaceCurrentPiece random).board i =
        some s.current_piece.color) ∧
    (∀ events : List (GameEvent × Nat), ∀ i,
      (i = s.current_piece.position.1 ∨ i = s.current_piece.position.2.1 ∨
       i = s.current_piece.position.2.2.1 ∨ i = s.current_piece.position.2.2.2) →
      cellOccupied
        (runEvents (update s GameEvent.PlaceCurrentPiece random) events).board i =
          true) := by
  obtain ⟨hp1, hp2, hp3, hp4⟩ := hp
  have hmem : ∀ i, (i = s.current_piece.position.1 ∨ i = s.current_piece.position.2.1 ∨
      i = s.current_piece.position.2.2.1 ∨ i = s.current_piece.position.2.2.2) →
      boardColor (update s GameEvent.PlaceCurrentPiece random).board i =
        some s.current_piece.color := by
    intro i hi
    exact boardColor_place_piece_mem _ _ _ _
      (by rcases hi with rfl | rfl | rfl | rfl <;> omega) hi
  refine ⟨rfl, rfl, hmem, ?_⟩
  intro events i hi
  apply cellOccupied_runEvents
  unfold cellOccupied
  rw [hmem i hi]
  rfl

set_option maxRecDepth 10000 in
/-- Witness for C5: locking the square piece on the initial state. -/
theorem place_current_piece_spec_witness :
    boardColor (update (initState 0) GameEvent.PlaceCurrentPiece 1).board 4 =
      some (initState 0).current_piece.color ∧
    cellOccupied (runEvents (update (initState 0) GameEvent.PlaceCurrentPiece 1)
      [(GameEvent.MoveCurrentPiece Direction.Down, 0)]).board 4 = true :=
  ⟨(place_current_piece_spec (initState 0) 1 (by decide) (by decide)).2.2.1 4
      (Or.inl (by decide)),
   (place_current_piece_spec (initState 0) 1 (by decide) (by decide)).2.2.2
      [(GameEvent.MoveCurrentPiece Direction.Down, 0)] 4 (Or.inl (by decide))⟩

set_option maxRecDepth 10000 in
/-- C6, counterexample: locking a freshly spawned piece over an already
occupied cell rewrites the cell's color — board cell 4 is occupied yellow
before the second lock command and occupied blue, not yellow, after it. -/
theorem occupancy_color_not_preserved :
    cellOccupied (update (initState 0) GameEvent.PlaceCurrentPiece 5).board 4 = true ∧
    boardColor (update (initState 0) GameEvent.PlaceCurrentPiece 5).board 4 =
      some Color.Yellow ∧
    boardColor (update (update (initState 0) GameEvent.PlaceCurrentPiece 5)
        GameEvent.PlaceCurrentPiece 0).board 4 = some Color.Blue := by
  refine ⟨by decide, by decide, by decide⟩

/-- C6, amended: occupancy is append-only — a cell occupied before any
command is still occupied after it; its color is unchanged except that a
`PlaceCurrentPiece` command may overwrite it with the locking piece's
color. -/
theorem occupancy_append_only (s : State) (e : GameEvent) (r : Nat) (i : Nat)
    (h : cellOccupied s.board i = true) :
    cellOccupied (update s e r).board i = true ∧
    (boardColor (update s e r).board i = boardColor s.board i ∨
      (e = GameEvent.PlaceCurrentPiece ∧
        boardColor (update s e r).board i = some s.current_piece.color)) := by
  refine ⟨cellOccupied_update_mono s e r i h, ?_⟩
  cases e with
  | MoveCurrentPiece d => exact Or.inl rfl
  | RotateCurrentPiece => exact Or.inl rfl
  | NoOP => exact Or.inl rfl
  | PlaceCurrentPiece =>
    by_cases hm : i = s.current_piece.position.1 ∨ i = s.current_piece.position.2.1 ∨
        i = s.current_piece.position.2.2.1 ∨ i = s.current_piece.position.2.2.2
    · exact Or.inr ⟨rfl,
        boardColor_place_piece_mem _ _ _ _ (cellOccupied_lt_length _ _ h) hm⟩
    · push_neg at hm
      obtain ⟨h1, h2, h3, h4⟩ := hm
      refine Or.inl ?_
      show boardColor
        (place_piece s.board s.current_piece.position s.current_piece.color) i = _
      unfold place_piece
      rw [boardColor_set_ne _ _ _ _ (Ne.symm h4), boardColor_set_ne _ _ _ _ (Ne.symm h3),
        boardColor_set_ne _ _ _ _ (Ne.symm h2), boardColor_set_ne _ _ _ _ (Ne.symm h1)]

set_option maxRecDepth 10000 in
/-- Witness for C6 at the pre-seeded occupied cell 232 under a Down
move. -/
theorem occupancy_append_only_witness :
    cellOccupied
      (update (initState 0) (GameEvent.MoveCurrentPiece Direction.Down) 0).board 232 =
        true ∧
    (boardColor
      (update (initState 0) (GameEvent.MoveCurrentPiece Direction.Down) 0).board 232 =
        boardColor (initState 0).board 232 ∨
      (GameEvent.MoveCurrentPiece Direction.Down = GameEvent.PlaceCurrentPiece ∧
        boardColor
          (update (initState 0) (GameEvent.MoveCurrentPiece Direction.Down) 0).board
            232 = some (initState 0).current_piece.color)) :=
  occupancy_append_only (initState 0) (GameEvent.MoveCurrentPiece Direction.Down) 0 232
    (by decide)

/-! ## Reachability invariant -/

theorem piece_new_in_range (r : Nat) : posInRange (Piece.new r).position := by
  match r with
  | 0 => decide
  | 1 => decide
  | 2 => decide
  | 3 => decide
  | 4 => decide
  | 5 => decide
  | n + 6 => exact (by decide : posInRange ((4 : Nat), (14 : Nat), (24 : Nat), (34 : Nat)))

theorem attempt_move_in_range (b : Board) (p : Position) (d : Direction)
    (hp : posInRange p) : posInRange (attempt_move b p d) := by
  simp only [attempt_move]
  split_ifs with h
  · obtain ⟨⟨g1, g2⟩, ⟨g3, g4⟩, ⟨g5, g6⟩, ⟨g7, g8⟩⟩ := move_is_legal_bounds b p _ h
    unfold posInRange position_from_theoritical
    dsimp only
    refine ⟨by omega, by omega, by omega, by omega⟩
  · exact hp

theorem attempt_rotate_in_range (b : Board) (p : Position)
    (hp : posInRange p) : posInRange (attempt_rotate b p) := by
  simp only [attempt_rotate]
  split_ifs with h
  · obtain ⟨⟨g1, g2⟩, ⟨g3, g4⟩, ⟨g5, g6⟩, ⟨g7, g8⟩⟩ := move_is_legal_bounds b p _ h
    unfold posInRange position_from_theoritical
    dsimp only
    refine ⟨by omega, by omega, by omega, by omega⟩
  · exact hp

theorem update_in_range (s : State) (e : GameEvent) (r : Nat)
    (hp : posInRange s.current_piece.position) :
    posInRange (update s e r).current_piece.position := by
  cases e with
  | MoveCurrentPiece d => exact attempt_move_in_range _ _ _ hp
  | RotateCurrentPiece => exact attempt_rotate_in_range _ _ hp
  | PlaceCurrentPiece => exact piece_new_in_range r
  | NoOP => exact hp

/-- C7: in every reachable state — any initial spawn followed by any
sequence of commands — the live piece's four indices lie in `[0, 240)`:
the spawn table only contains in-range positions, move and rotate only
commit candidates that pass the checker's bound test, and lock respawns
from the spawn table. -/
theorem reachable_piece_in_range (random : Nat) (events : List (GameEvent × Nat)) :
    posInRange (runEvents (initState random) events).current_piece.position := by
  have h : ∀ (s : State), posInRange s.current_piece.position →
      posInRange (runEvents s events).current_piece.position := by
    induction events with
    | nil => exact fun s hs => hs
    | cons e rest ih => exact fun s hs => ih _ (update_in_range s e.1 e.2 hs)
  exact h _ (piece_new_in_range random)

/-- C10: Move and Rotate commands change only the piece's position — the
board and the piece's color are untouched whether or not the candidate is
accepted; Lock changes no board cell other than the four at the piece's
indices; unrecognized input (`NoOP`) changes nothing at all. -/
theorem update_frame (s : State) (r : Nat) :
    (∀ d, (update s (GameEvent.MoveCurrentPiece d) r).board = s.board ∧
      (update s (GameEvent.MoveCurrentPiece d) r).current_piece.color =
        s.current_piece.color) ∧
    ((update s GameEvent.RotateCurrentPiece r).board = s.board ∧
      (update s GameEvent.RotateCurrentPiece r).current_piece.color =
        s.current_piece.color) ∧
    (∀ i, i ≠ s.current_piece.position.1 → i ≠ s.current_piece.position.2.1 →
      i ≠ s.current_piece.position.2.2.1 → i ≠ s.current_piece.position.2.2.2 →
      (update s GameEvent.PlaceCurrentPiece r).board.get? i = s.board.get? i) ∧
    (update s GameEvent.NoOP r = s) := by
  refine ⟨fun d => ⟨rfl, rfl⟩, ⟨rfl, rfl⟩, ?_, rfl⟩
  intro i h1 h2 h3 h4
  show (place_piece s.board s.current_piece.position s.current_piece.color).get? i = _
  unfold place_piece
  rw [get?_set_ne _ _ _ _ (Ne.symm h4), get?_set_ne _ _ _ _ (Ne.symm h3),
    get?_set_ne _ _ _ _ (Ne.symm h2), get?_set_ne _ _ _ _ (Ne.symm h1)]

set_option maxRecDepth 10000 in
/-- Witness for C10: a lock on the initial state leaves cell 0 (not under
the piece) unchanged. -/
theorem update_frame_witness :
    (update (initState 0) GameEvent.PlaceCurrentPiece 1).board.get? 0 =
      (initState 0).board.get? 0 :=
  (update_frame (initState 0) 1).2.2.1 0 (by decide) (by decide) (by decide) (by decide)
